import Mathlib

/-!
# Verification of sgxtop-rs against its specification

Shallow embedding of `src/main.rs` (an SGX enclave monitor reading
`/proc/sgx_stats` and `/proc/sgx_enclaves`).  Machine integers (`u64`, `u8`)
are modelled as `Nat` with explicit reduction modulo `2 ^ 64` (resp. `2 ^ 8`)
wherever Rust's release-profile wrapping arithmetic applies.  The `draw`
method's pure computational core (parsing, rate derivation, swap-backlog
derivation, held-sample update) is embedded as `drawCore`; terminal writes
are abstracted away, and panics (`unwrap` / `expect`) are modelled by
`Option` / `Except`.
-/

namespace Sgxtop

/-- `2 ^ 64`, the modulus of Rust `u64` arithmetic. -/
def U64 : Nat := 2 ^ 64

/-- Rust release-profile `u64` subtraction `a - b`: wraps modulo `2 ^ 64`
(under debug assertions the same expression panics on underflow; in neither
profile does it saturate at zero).  Embeds `impl Sub for Memory`
(`Self(self.0 - other.0)`, main.rs:83-89) and the direct `u64` subtraction
at main.rs:267. -/
def u64sub (a b : Nat) : Nat := (U64 + a - b) % U64

/-- Rust `x << 2` on `u64` (page count → KB), wrapping modulo `2 ^ 64`. -/
def shl2 (x : Nat) : Nat := (x * 4) % U64

/-- One step of the digit fold at main.rs:216-217 / main.rs:339:
`acc * 10 + ((x - 48) as u64)` where `x - 48` is wrapping `u8` subtraction
and the multiply-add is wrapping `u64` arithmetic. -/
def foldStep (acc x : Nat) : Nat := (acc * 10 + (x + 208) % 256) % U64

/-- The numeric parser: folds the bytes of one token with
`fold(0, |acc, x| acc * 10 + ((x - 48) as u64))` (main.rs:216-217, 339). -/
def foldDigits (l : List Nat) : Nat := l.foldl foldStep 0

/-- Mathematical decimal interpretation of a digit-byte token (the
specification's reading of the fold, with unbounded integers): used only to
compare the code's `foldDigits` against the spec's words. -/
def decValue (l : List Nat) : Nat := l.foldl (fun acc x => acc * 10 + (x - 48)) 0

/-- The delimiter predicate of both parsers: space (32), line feed (10),
carriage return (13) (main.rs:214, 338). -/
def isDelim (b : Nat) : Bool := b == 32 || b == 10 || b == 13

/-- The line-delimiter predicate of `read_sgx_enclave`: byte 10 or 13
(main.rs:334). -/
def isLineDelim (b : Nat) : Bool := b == 10 || b == 13

/-- Rust `slice::split(p)`: splits at every byte satisfying `p`, keeping
empty segments; `n` delimiter occurrences yield `n + 1` segments, and the
empty buffer yields one empty segment. -/
def splitOn (p : Nat → Bool) : List Nat → List (List Nat)
  | [] => [[]]
  | x :: xs =>
    if p x then [] :: splitOn p xs
    else
      match splitOn p xs with
      | [] => [[x]]
      | s :: ss => (x :: s) :: ss

/-- The shared token pipeline of both parsers: split the byte buffer on
space/LF/CR and fold each token's digits
(`.split(|x| x == &32 || x == &10 || x == &13).map(|x| x.iter().fold(...))`,
main.rs:213-218 and main.rs:337-339). -/
def fieldValues (bytes : List Nat) : List Nat :=
  (splitOn isDelim bytes).map foldDigits

/-! ## Lifecycle flag decoder (`impl Display for EnclaveState`) -/

def SGX_ENCL_INITIALIZED : Nat := 1 <<< 0
def SGX_ENCL_DEBUG : Nat := 1 <<< 1
def SGX_ENCL_SECS_EVICTED : Nat := 1 <<< 2
def SGX_ENCL_SUSPEND : Nat := 1 <<< 3
def SGX_ENCL_DEAD : Nat := 1 <<< 4

/-- The flag accumulation of `impl Display for EnclaveState`
(main.rs:46-61): test the five bits in declaration order, pushing the
matching display name. -/
def enclaveStateFlags (m : Nat) : List String :=
  (if m &&& SGX_ENCL_INITIALIZED > 0 then ["INIT"] else []) ++
  (if m &&& SGX_ENCL_DEBUG > 0 then ["DEBUG"] else []) ++
  (if m &&& SGX_ENCL_SECS_EVICTED > 0 then ["EVICT"] else []) ++
  (if m &&& SGX_ENCL_SUSPEND > 0 then ["SUS"] else []) ++
  (if m &&& SGX_ENCL_DEAD > 0 then ["DEAD"] else [])

/-- `v.join(",")` at main.rs:62: the accumulated flag names joined by a
comma with no spaces. -/
def enclaveStateJoined (m : Nat) : String :=
  String.intercalate "," (enclaveStateFlags m)

/-! ## Unit formatter (`impl Display for Memory`) -/

/-- Right-justification into a fixed-width field, as Rust's `{:>w}`:
pad with spaces on the left up to width `w`, never truncate. -/
def padLeft (w : Nat) (s : String) : String :=
  String.mk (List.replicate (w - s.length) ' ') ++ s

/-- `impl Display for Memory` (main.rs:72-81): values ≥ 1024 print as
`{:>7}M` of the floor quotient by 1024, smaller values as `{:>7}K` of the
raw value. -/
def memoryFmt (v : Nat) : String :=
  if v ≥ 1024 then padLeft 7 (toString (v / 1024)) ++ "M"
  else padLeft 7 (toString v) ++ "K"

/-- The Unit Formatter contract as the specification words it: a value
≥ 1024 renders floor(value/1024) with unit marker "M", otherwise the value
itself with unit marker "K", right-justified in the same fixed-width
field.  Used only to compare `memoryFmt` against the spec. -/
def unitFormatterSpec (v : Nat) : String :=
  if 1024 ≤ v then padLeft 7 (toString (v / 1024)) ++ "M"
  else padLeft 7 (toString v) ++ "K"

/-! ## Global statistics state and the pure core of `GlobalStats::draw` -/

/-- The data fields of `struct GlobalStats` (main.rs:154-178), minus the
terminal handle.  `Memory` values are bare `Nat` KB counts; the four
rate-bearing counters hold `Option Nat` exactly as in the source. -/
structure GlobalState where
  sgx_encl_created : Nat
  sgx_encl_released : Nat
  sgx_pages_alloced : Option Nat
  sgx_pages_freed : Option Nat
  sgx_nr_total_epc_pages : Nat
  sgx_va_pages_cnt : Nat
  sgx_nr_free_pages : Nat
  sgx_ewb_cnt : Option Nat
  sgx_eldu_cnt : Option Nat
  sgx_freed_backing_pages : Nat
  deriving Repr, DecidableEq

/-- `GlobalStats::new()` (main.rs:181-195): zeros and `None`s. -/
def GlobalState.new : GlobalState :=
  ⟨0, 0, none, none, 0, 0, 0, none, none, 0⟩

/-- One rate derivation (the four `match` blocks at main.rs:231-257):
no held previous value → 0; otherwise `new - old` with `Memory`'s
subtraction, i.e. wrapping `u64` subtraction. -/
def rate (prev : Option Nat) (newv : Nat) : Nat :=
  match prev with
  | none => 0
  | some old => u64sub newv old

/-- The quantities `GlobalStats::draw` derives and writes on one tick. -/
structure DrawOut where
  enclaves_running : Nat
  eadd_speed : Nat
  eremove_speed : Nat
  ewb_speed : Nat
  eldu_speed : Nat
  epc_used : Nat
  swap_size : Nat
  deriving Repr, DecidableEq

/-- The pure computational core of `GlobalStats::draw` (main.rs:212-301):
parse the ten positional fields of the stats buffer (a missing field makes
`iter.next().unwrap()` panic, modelled as `none`), shift page counts by 2,
derive the four rates against the held previous samples, overwrite the held
samples with the new values (main.rs:259-262), and only then compute the
swap backlog from the (now always `some`) held values (main.rs:293-300). -/
def drawCore (g : GlobalState) (bytes : List Nat) :
    Option (GlobalState × DrawOut) :=
  match fieldValues bytes with
  | c :: r :: pa :: pf :: te :: va :: fp :: ewb :: eldu :: fbp :: _ =>
    let pa' := shl2 pa
    let pf' := shl2 pf
    let ewb' := shl2 ewb
    let eldu' := shl2 eldu
    let eadd_speed := rate g.sgx_pages_alloced pa'
    let eremove_speed := rate g.sgx_pages_freed pf'
    let ewb_speed := rate g.sgx_ewb_cnt ewb'
    let eldu_speed := rate g.sgx_eldu_cnt eldu'
    let g' : GlobalState :=
      { sgx_encl_created := c
        sgx_encl_released := r
        sgx_pages_alloced := some pa'
        sgx_pages_freed := some pf'
        sgx_nr_total_epc_pages := shl2 te
        sgx_va_pages_cnt := shl2 va
        sgx_nr_free_pages := shl2 fp
        sgx_ewb_cnt := some ewb'
        sgx_eldu_cnt := some eldu'
        sgx_freed_backing_pages := shl2 fbp }
    -- main.rs:293-300: `match self.sgx_ewb_cnt { None => Memory(0),
    -- Some(_) => self.sgx_ewb_cnt.unwrap() - self.sgx_eldu_cnt.unwrap() - ... }`;
    -- at this point both fields were just set to `some`, so the `unwrap`s
    -- succeed and the `none` branch is unreachable.
    let swap_size :=
      match g'.sgx_ewb_cnt, g'.sgx_eldu_cnt with
      | some e, some l => u64sub (u64sub e l) g'.sgx_freed_backing_pages
      | _, _ => 0
    some (g', { enclaves_running := u64sub c r
                eadd_speed := eadd_speed
                eremove_speed := eremove_speed
                ewb_speed := ewb_speed
                eldu_speed := eldu_speed
                epc_used := u64sub g'.sgx_nr_total_epc_pages g'.sgx_nr_free_pages
                swap_size := swap_size })
  | _ => none

/-! ## Per-enclave record parser (`read_sgx_enclave`) -/

/-- `struct Enclave` (main.rs:93-121); `Memory` fields as `Nat` KB counts,
the lifecycle bitmask as the raw `u64`. -/
structure Enclave where
  pid : Nat
  eid : Nat
  virt : Nat
  eadds : Nat
  rss : Nat
  va : Nat
  swap : Nat
  state : Nat
  deriving Repr, DecidableEq

/-- One line of `read_sgx_enclave`'s map (main.rs:336-351): split the line
on space/LF/CR, fold each token's digits, and take the eight positional
fields `pid, eid, virt >> 10, eadds << 2, rss << 2, va << 2, state,
swap << 2`; fewer than eight fields makes `iter.next().unwrap()` panic,
modelled as `none`. -/
def parseEnclaveLine (line : List Nat) : Option Enclave :=
  match fieldValues line with
  | p :: e :: v :: ea :: rs :: va :: st :: sw :: _ =>
    some { pid := p
           eid := e
           virt := v / 1024
           eadds := shl2 ea
           rss := shl2 rs
           va := shl2 va
           swap := shl2 sw
           state := st }
  | _ => none

/-- Parsing each line in order (the `map`/`collect` at main.rs:336-352):
a panic (`none`) in any line aborts the whole read. -/
def parseLines : List (List Nat) → Option (List Enclave)
  | [] => some []
  | l :: ls =>
    match parseEnclaveLine l, parseLines ls with
    | some e, some es => some (e :: es)
    | _, _ => none

/-- `read_sgx_enclave` (main.rs:329-354) applied to the bytes of
`/proc/sgx_enclaves`: split into lines on bytes 10/13, drop empty lines
(`filter(|line| line.len() != 0)`), parse each remaining line. -/
def read_sgx_enclave (bytes : List Nat) : Option (List Enclave) :=
  parseLines ((splitOn isLineDelim bytes).filter (fun l => l.length != 0))

/-! ## Startup fault behaviour of `draw` -/

/-- `GlobalStats::draw` with its two external sources made explicit as
optional byte buffers.  A missing stats source makes
`fs::read("/proc/sgx_stats").expect(...)` (main.rs:212) panic with its
diagnostic; a missing enclaves source makes
`read_sgx_enclave().expect(...)` (main.rs:321) panic with its diagnostic;
a short buffer makes an `unwrap` on `None` panic (no resource named). -/
def drawWithSources (g : GlobalState) (stats : Option (List Nat))
    (encl : Option (List Nat)) :
    Except String (GlobalState × DrawOut × List Enclave) :=
  match stats with
  | none => .error "/proc/sgx_stats not found"
  | some sb =>
    match drawCore g sb with
    | none => .error "called Option::unwrap() on a None value"
    | some (g', out) =>
      match encl with
      | none => .error "/proc/sgx_enclaves not found"
      | some eb =>
        match read_sgx_enclave eb with
        | none => .error "called Option::unwrap() on a None value"
        | some ev => .ok (g', out, ev)

/-! ## The main event loop (main.rs:356-381) -/

/-- The keys the loop distinguishes (`termion::event::Key`). -/
inductive MKey where
  | char (c : Char)
  | ctrl (c : Char)
  | other
  deriving Repr, DecidableEq

/-- `Event::Input` / `Event::Tick` from the event multiplexer. -/
inductive MEvent where
  | input (k : MKey)
  | tick
  deriving Repr, DecidableEq

/-- The observable actions of one loop iteration: `showCursor` and `flush`
are the two effects of `GlobalStats::reset` (main.rs:197-200), `drawFrame`
abstracts `GlobalStats::draw`. -/
inductive MAction where
  | showCursor
  | flush
  | drawFrame
  deriving Repr, DecidableEq

/-- The two states of the dashboard renderer. -/
inductive LoopState where
  | running
  | terminated
  deriving Repr, DecidableEq

/-- Whether a key is one of the two quit keys matched at main.rs:364-371:
`Key::Char('q')` or `Key::Ctrl('c')`. -/
def isQuit (k : MKey) : Bool :=
  match k with
  | .char c => c == 'q'
  | .ctrl c => c == 'c'
  | .other => false

/-- One iteration of the `loop`/`match` at main.rs:361-378: a quit input
runs `g.reset()` (show cursor, flush) and `break`s; any other input falls
to `_ => {}`; a tick runs `g.draw()`. -/
def loopStep (e : MEvent) : LoopState × List MAction :=
  match e with
  | .input k =>
    if isQuit k then (.terminated, [.showCursor, .flush]) else (.running, [])
  | .tick => (.running, [.drawFrame])

/-- Running the loop on a finite prefix of the event stream, from the
Running state: stops consuming events as soon as an iteration `break`s
(Terminated is absorbing). -/
def runLoop : List MEvent → LoopState × List MAction
  | [] => (.running, [])
  | e :: es =>
    match loopStep e with
    | (.terminated, as) => (.terminated, as)
    | (.running, as) =>
      let r := runLoop es
      (r.1, as ++ r.2)

/-- `fn main` (main.rs:356-381): one unconditional `g.draw()` before the
loop, then the loop; reaching `break` falls through to `Ok(())`, so the
process exit status is 0 exactly on the quit path. -/
def mainTrace (es : List MEvent) : LoopState × List MAction :=
  let r := runLoop es
  (r.1, MAction.drawFrame :: r.2)

/-- Process exit status: the `break` path returns `Ok(())` from `main`,
exit code 0; while still Running the process has not exited. -/
def exitStatus : LoopState → Option Nat
  | .terminated => some 0
  | .running => none

/-! ## Helper lemmas about the token splitter -/

/-- A leading delimiter closes an (empty) segment. -/
theorem splitOn_cons_delim (p : Nat → Bool) (d : Nat) (r : List Nat)
    (hd : p d = true) : splitOn p (d :: r) = [] :: splitOn p r := by
  simp [splitOn, hd]

/-- A buffer without delimiters is one single segment. -/
theorem splitOn_no_delim (p : Nat → Bool) (l : List Nat)
    (h : ∀ b ∈ l, p b = false) : splitOn p l = [l] := by
  induction l with
  | nil => rfl
  | cons x xs ih =>
    have hx : p x = false := h x (List.mem_cons_self x xs)
    have ih' := ih (fun b hb => h b (List.mem_cons_of_mem x hb))
    simp [splitOn, hx, ih']

/-- Splitting a buffer that starts with a delimiter-free prefix followed by
a delimiter: the prefix is the first segment. -/
theorem splitOn_append_delim (p : Nat → Bool) (l : List Nat) (d : Nat)
    (r : List Nat) (h : ∀ b ∈ l, p b = false) (hd : p d = true) :
    splitOn p (l ++ d :: r) = l :: splitOn p r := by
  induction l with
  | nil => simpa using splitOn_cons_delim p d r hd
  | cons x xs ih =>
    have hx : p x = false := h x (List.mem_cons_self x xs)
    have ih' := ih (fun b hb => h b (List.mem_cons_of_mem x hb))
    simp [splitOn, hx, ih']

/-! ## Claim theorems -/

/-- Claim C3: for every non-negative Memory value `v`, the unit formatter
renders `floor (v / 1024)` with unit marker "M" when `v ≥ 1024` and `v`
itself with unit marker "K" when `v < 1024` (2048 → "2M", 1023 → "1023K",
1024 → "1M"), each right-justified in the same 8-character field; this is
exactly the specification's `unitFormatterSpec`. -/
theorem claim_C3_unit_formatter :
    (∀ v : Nat, memoryFmt v = unitFormatterSpec v) ∧
    (∀ v : Nat, 1024 ≤ v → memoryFmt v = padLeft 7 (toString (v / 1024)) ++ "M") ∧
    (∀ v : Nat, v < 1024 → memoryFmt v = padLeft 7 (toString v) ++ "K") ∧
    memoryFmt 2048 = "      2M" ∧
    memoryFmt 1023 = "   1023K" ∧
    memoryFmt 1024 = "      1M" := by
  refine ⟨fun v => rfl, fun v hv => ?_, fun v hv => ?_, by decide, by decide, by decide⟩
  · simp [memoryFmt, hv]
  · simp [memoryFmt, Nat.not_le.mpr hv]

/-- Claim C3 witness: the formatter at the concrete inputs 4096 and 512. -/
theorem claim_C3_unit_formatter_witness :
    memoryFmt 4096 = padLeft 7 (toString (4096 / 1024)) ++ "M" ∧
    memoryFmt 512 = padLeft 7 (toString 512) ++ "K" :=
  ⟨claim_C3_unit_formatter.2.1 4096 (by decide),
   claim_C3_unit_formatter.2.2.1 512 (by decide)⟩

/-- The five lifecycle flags with their display names, in declaration order
(main.rs:27-31 and main.rs:46-61). -/
def flagTable : List (Nat × String) :=
  [(SGX_ENCL_INITIALIZED, "INIT"), (SGX_ENCL_DEBUG, "DEBUG"),
   (SGX_ENCL_SECS_EVICTED, "EVICT"), (SGX_ENCL_SUSPEND, "SUS"),
   (SGX_ENCL_DEAD, "DEAD")]

/-- Bits below position `n` are unchanged by reduction modulo `2 ^ n`. -/
theorem and_mod_two_pow (m k n : Nat) (h : k < n) :
    (m % 2 ^ n) &&& 2 ^ k = m &&& 2 ^ k := by
  rw [Nat.and_two_pow, Nat.and_two_pow, Nat.testBit_mod_two_pow]
  simp [h]

/-- Claim C5: the lifecycle decoder accumulates exactly the flags whose
distinct bits are set, in the fixed declaration order INITIALIZED, DEBUG,
SECS_EVICTED, SUSPEND, DEAD (displayed as INIT, DEBUG, EVICT, SUS, DEAD);
bitmask 0 yields the empty flag list; unrecognized bits above the fifth are
silently ignored (the decode depends only on the mask modulo 32); and the
names are joined by a comma with no spaces. -/
theorem claim_C5_flag_decoder :
    (∀ m : Nat, enclaveStateFlags m =
      (flagTable.filter (fun q => m &&& q.1 > 0)).map Prod.snd) ∧
    enclaveStateFlags 0 = [] ∧
    (∀ m : Nat, enclaveStateFlags (m % 32) = enclaveStateFlags m) ∧
    (∀ m : Nat, enclaveStateJoined m =
      String.intercalate "," (enclaveStateFlags m)) ∧
    enclaveStateFlags 17 = ["INIT", "DEAD"] ∧
    enclaveStateJoined 17 = "INIT,DEAD" ∧
    enclaveStateJoined 31 = "INIT,DEBUG,EVICT,SUS,DEAD" := by
  refine ⟨fun m => ?_, by decide, fun m => ?_, fun m => rfl, by decide,
    by decide, by decide⟩
  · simp only [enclaveStateFlags, flagTable, List.filter, List.map]
    split_ifs <;> simp_all
  · have c0 : SGX_ENCL_INITIALIZED = 2 ^ 0 := by decide
    have c1 : SGX_ENCL_DEBUG = 2 ^ 1 := by decide
    have c2 : SGX_ENCL_SECS_EVICTED = 2 ^ 2 := by decide
    have c3 : SGX_ENCL_SUSPEND = 2 ^ 3 := by decide
    have c4 : SGX_ENCL_DEAD = 2 ^ 4 := by decide
    have h32 : (32 : Nat) = 2 ^ 5 := by decide
    simp only [enclaveStateFlags, c0, c1, c2, c3, c4, h32,
      and_mod_two_pow m 0 5 (by decide), and_mod_two_pow m 1 5 (by decide),
      and_mod_two_pow m 2 5 (by decide), and_mod_two_pow m 3 5 (by decide),
      and_mod_two_pow m 4 5 (by decide)]

/-- Claim C10: in the shared token pipeline of both parsers, two
consecutive delimiter bytes produce an empty token, the digit fold over an
empty token yields 0, and so the empty token is consumed as a zero-valued
positional field that shifts all subsequent fields by one position. -/
theorem claim_C10_empty_token (pre post : List Nat) (d1 d2 : Nat)
    (hpre : ∀ b ∈ pre, isDelim b = false)
    (h1 : isDelim d1 = true) (h2 : isDelim d2 = true) :
    fieldValues (pre ++ d1 :: d2 :: post) =
      foldDigits pre :: 0 :: fieldValues post := by
  unfold fieldValues
  rw [splitOn_append_delim isDelim pre d1 (d2 :: post) hpre h1,
    splitOn_cons_delim isDelim d2 post h2]
  rfl

/-- Claim C10 witness: the buffer "1␣␣2" parses as the fields 1, 0, 2. -/
theorem claim_C10_empty_token_witness :
    fieldValues [49, 32, 32, 50] = foldDigits [49] :: 0 :: fieldValues [50] ∧
    fieldValues [49, 32, 32, 50] = [1, 0, 2] :=
  ⟨claim_C10_empty_token [49] [50] 32 32 (by decide) (by decide) (by decide),
   by decide⟩

/-- Full characterization of one `draw` tick when the stats buffer parses
to at least ten fields: the new state and every derived quantity. -/
theorem drawCore_eq (g : GlobalState) (bytes : List Nat)
    (c r pa pf te va fp ewb eldu fbp : Nat) (rest : List Nat)
    (h : fieldValues bytes =
      c :: r :: pa :: pf :: te :: va :: fp :: ewb :: eldu :: fbp :: rest) :
    drawCore g bytes =
      some (⟨c, r, some (shl2 pa), some (shl2 pf), shl2 te, shl2 va,
             shl2 fp, some (shl2 ewb), some (shl2 eldu), shl2 fbp⟩,
            ⟨u64sub c r,
             rate g.sgx_pages_alloced (shl2 pa),
             rate g.sgx_pages_freed (shl2 pf),
             rate g.sgx_ewb_cnt (shl2 ewb),
             rate g.sgx_eldu_cnt (shl2 eldu),
             u64sub (shl2 te) (shl2 fp),
             u64sub (u64sub (shl2 ewb) (shl2 eldu)) (shl2 fbp)⟩) := by
  unfold drawCore
  rw [h]

/-- Stats buffer "0 0 2 0 0 0 0 0 0 0" (pages-alloced raw sample 2). -/
def tickBytesA : List Nat :=
  [48, 32, 48, 32, 50, 32, 48, 32, 48, 32, 48, 32, 48, 32, 48, 32, 48, 32, 48]

/-- Stats buffer "0 0 1 0 0 0 0 0 0 0" (pages-alloced raw sample 1,
smaller than the previous sample: a simulated counter reset). -/
def tickBytesB : List Nat :=
  [48, 32, 48, 32, 49, 32, 48, 32, 48, 32, 48, 32, 48, 32, 48, 32, 48, 32, 48]

/-- Stats buffer "0 0 0 0 0 0 0 1 0 0" (write-back raw sample 1 on the
very first tick). -/
def tickBytesC : List Nat :=
  [48, 32, 48, 32, 48, 32, 48, 32, 48, 32, 48, 32, 48, 32, 49, 32, 48, 32, 48]

/-- Claim C1 counterexample: two ticks from the initial state, the first
with pages-alloced sample 8 KB (raw 2), the second with 4 KB (raw 1), so
V2 < V1; the reported eadd rate is the wrapped value 2^64 − 4, not 0 — the
`Memory` subtraction is plain `u64` subtraction, not non-negative
saturation. -/
theorem claim_C1_counterexample :
    (Option.bind (drawCore GlobalState.new tickBytesA)
      (fun s => (drawCore s.1 tickBytesB).map (fun t => t.2.eadd_speed))) =
      some 18446744073709551612 ∧
    (18446744073709551612 : Nat) ≠ 0 := by
  constructor
  · rfl
  · decide

/-- Claim C1 as amended: with a previous sample held, the reported rate is
the wrapping `u64` difference `V2 - V1`: the true delta when `V2 ≥ V1`, but
the wrapped value `2^64 − (V1 − V2)` — a huge nonzero number, never a
clamped 0 — when `V2 < V1`.  (Under debug assertions the same subtraction
panics instead; in neither profile does it saturate at zero.) -/
theorem claim_C1_amended (old newv : Nat) (hold : old < U64) (hnew : newv < U64) :
    rate none newv = 0 ∧
    (old ≤ newv → rate (some old) newv = newv - old) ∧
    (newv < old → rate (some old) newv = U64 - (old - newv) ∧
      rate (some old) newv ≠ 0) := by
  refine ⟨rfl, fun h => ?_, fun h => ⟨?_, ?_⟩⟩ <;>
    simp only [rate, u64sub, U64] at * <;> omega

/-- Claim C1 amended witness: previous sample 8, new sample 4: the rate is
2^64 − 4, which is not 0. -/
theorem claim_C1_amended_witness :
    rate (some 8) 4 = U64 - (8 - 4) ∧ rate (some 8) 4 ≠ 0 :=
  (claim_C1_amended 8 4 (by decide) (by decide)).2.2 (by decide)

/-- Claim C2 counterexample: on the very first tick (the initial state
holds no previous write-back sample: `sgx_ewb_cnt = none`), a stats buffer
with write-back raw 1 and load/freed-backing 0 yields a displayed swap
backlog of 4 KB, not 0 — the subtraction IS attempted on the first tick,
because the held samples are overwritten with the new ones (main.rs:259-262)
before the backlog match (main.rs:293-300) inspects them. -/
theorem claim_C2_counterexample :
    GlobalState.new.sgx_ewb_cnt = none ∧
    (drawCore GlobalState.new tickBytesC).map (fun s => s.2.swap_size) =
      some 4 ∧
    (4 : Nat) ≠ 0 := by
  refine ⟨rfl, ?_, by decide⟩
  rfl

/-- Claim C2 as amended: on every tick — including the very first — the
displayed swap backlog is `(write-back − load) − freed-backing` computed by
wrapping `u64` subtraction from the current tick's parsed values; the
first-tick `None` guard never fires, because by the time the backlog is
computed the held write-back sample has already been replaced by this
tick's value. -/
theorem claim_C2_amended (g : GlobalState) (bytes : List Nat)
    (c r pa pf te va fp ewb eldu fbp : Nat) (rest : List Nat)
    (h : fieldValues bytes =
      c :: r :: pa :: pf :: te :: va :: fp :: ewb :: eldu :: fbp :: rest) :
    ∀ g' out, drawCore g bytes = some (g', out) →
      out.swap_size = u64sub (u64sub (shl2 ewb) (shl2 eldu)) (shl2 fbp) ∧
      g'.sgx_ewb_cnt = some (shl2 ewb) := by
  intro g' out hdraw
  rw [drawCore_eq g bytes c r pa pf te va fp ewb eldu fbp rest h] at hdraw
  cases hdraw
  exact ⟨rfl, rfl⟩

/-- Claim C2 amended witness: the amended statement at the concrete
first-tick run of `claim_C2_counterexample`'s buffer, with the resulting
state and output spelled out. -/
theorem claim_C2_amended_witness :
    (⟨0, 0, 0, 0, 0, 0, 4⟩ : DrawOut).swap_size =
      u64sub (u64sub (shl2 1) (shl2 0)) (shl2 0) ∧
    (⟨0, 0, some 0, some 0, 0, 0, 0, some 4, some 0, 0⟩ :
      GlobalState).sgx_ewb_cnt = some (shl2 1) :=
  claim_C2_amended GlobalState.new tickBytesC 0 0 0 0 0 0 0 1 0 0 []
    (by rfl) ⟨0, 0, some 0, some 0, 0, 0, 0, some 4, some 0, 0⟩
    ⟨0, 0, 0, 0, 0, 0, 4⟩ (by rfl)

/-- Claim C4: for each of the four rate-bearing counters, on a tick where
no previous value is held the reported rate is 0 regardless of the parsed
sample, and after every tick each held previous value is replaced by that
tick's newly parsed (shifted) value. -/
theorem claim_C4_rate_tracker (g : GlobalState) (bytes : List Nat)
    (c r pa pf te va fp ewb eldu fbp : Nat) (rest : List Nat)
    (h : fieldValues bytes =
      c :: r :: pa :: pf :: te :: va :: fp :: ewb :: eldu :: fbp :: rest) :
    ∃ g' out, drawCore g bytes = some (g', out) ∧
      (g.sgx_pages_alloced = none → out.eadd_speed = 0) ∧
      (g.sgx_pages_freed = none → out.eremove_speed = 0) ∧
      (g.sgx_ewb_cnt = none → out.ewb_speed = 0) ∧
      (g.sgx_eldu_cnt = none → out.eldu_speed = 0) ∧
      g'.sgx_pages_alloced = some (shl2 pa) ∧
      g'.sgx_pages_freed = some (shl2 pf) ∧
      g'.sgx_ewb_cnt = some (shl2 ewb) ∧
      g'.sgx_eldu_cnt = some (shl2 eldu) := by
  refine ⟨_, _, drawCore_eq g bytes c r pa pf te va fp ewb eldu fbp rest h,
    fun h1 => ?_, fun h2 => ?_, fun h3 => ?_, fun h4 => ?_,
    rfl, rfl, rfl, rfl⟩
  · simp [h1, rate]
  · simp [h2, rate]
  · simp [h3, rate]
  · simp [h4, rate]

/-- Claim C4 witness: the first tick from the initial state (all four held
values `none`) on a concrete buffer reports all four rates as 0 and stores
the new samples. -/
theorem claim_C4_rate_tracker_witness :
    ∃ g' out, drawCore GlobalState.new tickBytesA = some (g', out) ∧
      (GlobalState.new.sgx_pages_alloced = none → out.eadd_speed = 0) ∧
      (GlobalState.new.sgx_pages_freed = none → out.eremove_speed = 0) ∧
      (GlobalState.new.sgx_ewb_cnt = none → out.ewb_speed = 0) ∧
      (GlobalState.new.sgx_eldu_cnt = none → out.eldu_speed = 0) ∧
      g'.sgx_pages_alloced = some (shl2 2) ∧
      g'.sgx_pages_freed = some (shl2 0) ∧
      g'.sgx_ewb_cnt = some (shl2 0) ∧
      g'.sgx_eldu_cnt = some (shl2 0) :=
  claim_C4_rate_tracker GlobalState.new tickBytesA 0 0 2 0 0 0 0 0 0 0 []
    (by rfl)

/-- A successful `parseLines` yields exactly one record per line. -/
theorem parseLines_length :
    ∀ (ls : List (List Nat)) (res : List Enclave), parseLines ls = some res →
      res.length = ls.length := by
  intro ls
  induction ls with
  | nil =>
    intro res h
    simp only [parseLines, Option.some.injEq] at h
    simp [← h]
  | cons l ls ih =>
    intro res h
    simp only [parseLines] at h
    cases hp : parseEnclaveLine l with
    | none => rw [hp] at h; exact absurd h (by simp)
    | some e =>
      rw [hp] at h
      cases hr : parseLines ls with
      | none => rw [hr] at h; exact absurd h (by simp)
      | some es =>
        rw [hr] at h
        simp only [Option.some.injEq] at h
        simp [← h, ih es hr]

/-- Claim C6: a well-formed two-line per-enclave stream (each line
delimiter-free, non-empty, with exactly eight digit-token fields, and a
final line terminator) parses to exactly two records in input-line order,
with virtual-size the raw value right-shifted by 10, the eadd / resident /
version-array / swapped fields the raw values left-shifted by 2 (wrapping
`u64` shift), the lifecycle bitmask unchanged, and the empty trailing line
skipped; in general a successful parse returns exactly one record per
non-empty line. -/
theorem claim_C6_record_parse (l1 l2 : List Nat)
    (hnd1 : ∀ x ∈ l1, isLineDelim x = false)
    (hnd2 : ∀ x ∈ l2, isLineDelim x = false)
    (hne1 : l1 ≠ []) (hne2 : l2 ≠ [])
    (p1 e1 v1 ea1 rs1 va1 st1 sw1 p2 e2 v2 ea2 rs2 va2 st2 sw2 : Nat)
    (ht1 : fieldValues l1 = [p1, e1, v1, ea1, rs1, va1, st1, sw1])
    (ht2 : fieldValues l2 = [p2, e2, v2, ea2, rs2, va2, st2, sw2]) :
    read_sgx_enclave (l1 ++ 10 :: (l2 ++ [10])) =
      some [⟨p1, e1, v1 >>> 10, shl2 ea1, shl2 rs1, shl2 va1, shl2 sw1, st1⟩,
            ⟨p2, e2, v2 >>> 10, shl2 ea2, shl2 rs2, shl2 va2, shl2 sw2, st2⟩] ∧
    (∀ bytes recs, read_sgx_enclave bytes = some recs →
      recs.length = (((splitOn isLineDelim bytes).filter
        (fun l => l.length != 0)).length)) := by
  constructor
  · have hsplit : splitOn isLineDelim (l1 ++ 10 :: (l2 ++ [10])) =
        l1 :: l2 :: [[]] := by
      rw [splitOn_append_delim isLineDelim l1 10 (l2 ++ [10]) hnd1 rfl,
        splitOn_append_delim isLineDelim l2 10 [] hnd2 rfl]
      rfl
    have hl1 : (l1.length != 0) = true := by
      simpa [bne_iff_ne] using fun h => hne1 (List.length_eq_zero.mp h)
    have hl2 : (l2.length != 0) = true := by
      simpa [bne_iff_ne] using fun h => hne2 (List.length_eq_zero.mp h)
    have hv1 : v1 >>> 10 = v1 / 1024 := by
      rw [Nat.shiftRight_eq_div_pow]
    have hv2 : v2 >>> 10 = v2 / 1024 := by
      rw [Nat.shiftRight_eq_div_pow]
    unfold read_sgx_enclave
    rw [hsplit]
    simp [List.filter, hl1, hl2, parseLines, parseEnclaveLine, ht1, ht2,
      hv1, hv2]
  · intro bytes recs h
    exact parseLines_length _ recs h

/-- The bytes of the line "1 2 4096 3 4 5 6 7". -/
def enclLine1 : List Nat :=
  [49, 32, 50, 32, 52, 48, 57, 54, 32, 51, 32, 52, 32, 53, 32, 54, 32, 55]

/-- The bytes of the line "8 9 2048 1 1 1 1 1". -/
def enclLine2 : List Nat :=
  [56, 32, 57, 32, 50, 48, 52, 56, 32, 49, 32, 49, 32, 49, 32, 49, 32, 49]

/-- Claim C6 witness: the concrete two-line stream
"1 2 4096 3 4 5 6 7\n8 9 2048 1 1 1 1 1\n" parses to its two records. -/
theorem claim_C6_record_parse_witness :
    read_sgx_enclave (enclLine1 ++ 10 :: (enclLine2 ++ [10])) =
      some [⟨1, 2, 4096 >>> 10, shl2 3, shl2 4, shl2 5, shl2 7, 6⟩,
            ⟨8, 9, 2048 >>> 10, shl2 1, shl2 1, shl2 1, shl2 1, 1⟩] :=
  (claim_C6_record_parse enclLine1 enclLine2 (by decide) (by decide)
    (by decide) (by decide) 1 2 4096 3 4 5 6 7 8 9 2048 1 1 1 1 1
    (by rfl) (by rfl)).1

/-- The token of twenty ASCII '9' bytes. -/
def nines20 : List Nat := List.replicate 20 57

/-- Claim C7 counterexample: the all-digit token "99999999999999999999"
(twenty nines) folds to its decimal value reduced modulo 2^64, not to the
decimal value itself — the fold is wrapping `u64` arithmetic. -/
theorem claim_C7_counterexample :
    (∀ x ∈ nines20, 48 ≤ x ∧ x ≤ 57) ∧
    decValue nines20 = 99999999999999999999 ∧
    foldDigits nines20 = 7766279631452241919 ∧
    foldDigits nines20 ≠ decValue nines20 := by
  exact ⟨by decide, by rfl, by rfl, by decide⟩

/-- The multiply-by-ten-and-add fold over digit bytes, with any starting
accumulator already reduced modulo 2^64, equals the exact decimal fold
reduced modulo 2^64. -/
theorem foldl_digits_mod (l : List Nat) :
    ∀ acc : Nat, (∀ x ∈ l, 48 ≤ x ∧ x ≤ 57) →
      l.foldl foldStep (acc % U64) =
        (l.foldl (fun a x => a * 10 + (x - 48)) acc) % U64 := by
  induction l with
  | nil => intro acc _; rfl
  | cons x xs ih =>
    intro acc h
    have hx := h x (List.mem_cons_self x xs)
    have hstep : foldStep (acc % U64) x = (acc * 10 + (x - 48)) % U64 := by
      simp only [foldStep, U64]
      omega
    calc (x :: xs).foldl foldStep (acc % U64)
        = xs.foldl foldStep (foldStep (acc % U64) x) := rfl
      _ = xs.foldl foldStep ((acc * 10 + (x - 48)) % U64) := by rw [hstep]
      _ = (xs.foldl (fun a x => a * 10 + (x - 48)) (acc * 10 + (x - 48))) %
            U64 := ih _ (fun b hb => h b (List.mem_cons_of_mem x hb))
      _ = ((x :: xs).foldl (fun a x => a * 10 + (x - 48)) acc) % U64 := rfl

/-- Claim C7 as amended: for every token of ASCII digit bytes, the fold
produces the token's decimal interpretation reduced modulo 2^64 — and hence
the exact decimal interpretation whenever that value fits in a `u64`. -/
theorem claim_C7_amended (l : List Nat) (h : ∀ x ∈ l, 48 ≤ x ∧ x ≤ 57) :
    foldDigits l = decValue l % U64 ∧
    (decValue l < U64 → foldDigits l = decValue l) := by
  have key : foldDigits l = decValue l % U64 := by
    have h0 : (0 : Nat) % U64 = 0 := rfl
    have := foldl_digits_mod l 0 h
    rw [h0] at this
    exact this
  exact ⟨key, fun hlt => by rw [key, Nat.mod_eq_of_lt hlt]⟩

/-- Claim C7 amended witness: the token "123" folds to 123. -/
theorem claim_C7_amended_witness :
    foldDigits [49, 50, 51] = decValue [49, 50, 51] % U64 ∧
    (decValue [49, 50, 51] < U64 →
      foldDigits [49, 50, 51] = decValue [49, 50, 51]) :=
  claim_C7_amended [49, 50, 51] (by decide)

/-- Restoration count along a finite run prefix: exactly one `showCursor`
when the run reached Terminated, zero while still Running. -/
theorem runLoop_count_showCursor (es : List MEvent) :
    ((runLoop es).2.count MAction.showCursor) =
      if (runLoop es).1 = LoopState.terminated then 1 else 0 := by
  induction es with
  | nil => rfl
  | cons e es ih =>
    cases e with
    | tick => simpa [runLoop, loopStep] using ih
    | input k =>
      by_cases hq : isQuit k
      · simp [runLoop, loopStep, hq]
      · simpa [runLoop, loopStep, hq] using ih

/-- Claim C8: while Running, an Input event carrying 'q' or Ctrl-C makes
the loop show the cursor, flush, and move to the absorbing Terminated
state, from which the process exits with status 0; every other Input event
leaves the state Running with no action; and over any whole run of the
process, terminal restoration (`showCursor`) happens exactly once when a
quit is processed and never otherwise. -/
theorem claim_C8_quit_handling :
    (∀ k, isQuit k = true →
      loopStep (.input k) = (.terminated, [.showCursor, .flush])) ∧
    (∀ k, isQuit k = false → loopStep (.input k) = (.running, [])) ∧
    isQuit (.char 'q') = true ∧
    isQuit (.ctrl 'c') = true ∧
    (∀ e es as, loopStep e = (.terminated, as) →
      runLoop (e :: es) = (.terminated, as)) ∧
    exitStatus .terminated = some 0 ∧
    exitStatus .running = none ∧
    (∀ es, ((mainTrace es).2.count MAction.showCursor) =
      if (mainTrace es).1 = LoopState.terminated then 1 else 0) := by
  refine ⟨fun k hk => by simp [loopStep, hk],
    fun k hk => by simp [loopStep, hk], rfl, rfl,
    fun e es as h => by simp [runLoop, h], rfl, rfl, fun es => ?_⟩
  simpa [mainTrace] using runLoop_count_showCursor es

/-- Claim C8 witness: 'q' quits with show-cursor and flush, 'x' does
nothing, and a concrete run tick-then-quit restores the cursor exactly
once. -/
theorem claim_C8_quit_handling_witness :
    loopStep (.input (.char 'q')) = (.terminated, [.showCursor, .flush]) ∧
    loopStep (.input (.char 'x')) = (.running, []) ∧
    runLoop [.input (.ctrl 'c'), .tick] =
      (.terminated, [.showCursor, .flush]) ∧
    ((mainTrace [.tick, .input (.char 'q'), .tick]).2.count
      MAction.showCursor) = 1 :=
  ⟨claim_C8_quit_handling.1 _ rfl,
   claim_C8_quit_handling.2.1 _ (by decide),
   claim_C8_quit_handling.2.2.2.2.1 _ ([MEvent.tick]) _
     (claim_C8_quit_handling.1 _ rfl),
   by simpa using
     (claim_C8_quit_handling.2.2.2.2.2.2.2
       ([MEvent.tick, MEvent.input (MKey.char 'q'), MEvent.tick]))⟩

/-- Claim C9: a missing or unreadable required stream terminates `draw` at
once with a diagnostic naming the missing resource: a missing
`/proc/sgx_stats` panics with "/proc/sgx_stats not found" before anything
else is parsed, and a missing `/proc/sgx_enclaves` (with the stats stream
fine) panics with "/proc/sgx_enclaves not found". -/
theorem claim_C9_startup_fault (g : GlobalState) :
    (∀ encl, drawWithSources g none encl =
      .error "/proc/sgx_stats not found") ∧
    (∀ sb res, drawCore g sb = some res →
      drawWithSources g (some sb) none =
        .error "/proc/sgx_enclaves not found") := by
  refine ⟨fun encl => rfl, fun sb res h => ?_⟩
  simp [drawWithSources, h]

/-- Claim C9 witness: the concrete faults from the initial state. -/
theorem claim_C9_startup_fault_witness :
    drawWithSources GlobalState.new none (some []) =
      .error "/proc/sgx_stats not found" ∧
    drawWithSources GlobalState.new (some tickBytesA) none =
      .error "/proc/sgx_enclaves not found" :=
  ⟨(claim_C9_startup_fault GlobalState.new).1 (some []),
   (claim_C9_startup_fault GlobalState.new).2 tickBytesA _ rfl⟩

end Sgxtop
